import Mathlib

/-!
Verification development for the RealVibe Site Copilot repository.

The visible sources are the SQL schema (tables `sites`, `files`, `chunks`,
`answer_memory`, `runs`, `answers` with row-level security policies) and the
Next.js review frontend (`review/[runId].tsx`, `ReviewSummary.tsx`).  The
autofill pipeline itself (hybrid retriever, review gate, recorder upsert,
evidencer, confidence scorer) is described in the specification but its code
is not among the visible sources; those operations are modelled from the
specification, as marked in their doc comments.  Floating-point confidence
and score values are modelled as rationals.
-/

namespace RealVibe

/-- Review status of an answer, from the `answers.review_status` column
(`needs_review` | `accepted` | `edited`) and the matching union type of
`FieldAnswer.status` in `review/[runId].tsx`. -/
inductive ReviewStatus where
  | needs_review
  | accepted
  | edited
deriving DecidableEq, Repr

/-- Where a candidate answer value came from: fresh retrieval or an
Answer Memory reuse (spec section 4.2). -/
inductive AnswerSource where
  | fresh_retrieval
  | memory_reuse
deriving DecidableEq, Repr

/-- Review-gate configuration, from spec section 4.4: the threshold is
configuration exposed as a value in the unit interval, default 0.6. -/
structure GateConfig where
  review_threshold : ℚ
deriving DecidableEq, Repr

/-- The default configuration: review_threshold = 0.6. -/
def defaultGateConfig : GateConfig := ⟨6/10⟩

/-- Modelled from the spec: section 4.4 review gate,
`gate(confidence) → accepted | needs_review`; values below the threshold are
routed to `needs_review`.  The gate code is not among the visible sources. -/
def gate (cfg : GateConfig) (confidence : ℚ) : ReviewStatus :=
  if confidence < cfg.review_threshold then ReviewStatus.needs_review
  else ReviewStatus.accepted

/-- Modelled from the spec: the status presented for a candidate answer is the
gate applied to its confidence, regardless of whether the value came from
fresh retrieval or from an Answer Memory reuse (spec section 4.4,
"regardless of any upstream reuse"). -/
def presentedStatus (cfg : GateConfig) (_src : AnswerSource)
    (confidence : ℚ) : ReviewStatus :=
  gate cfg confidence

/-- C1: any confidence strictly below the configured review_threshold is
routed to `needs_review` and is never presented as `accepted`, for both
answer sources. -/
theorem gate_low_confidence_needs_review (cfg : GateConfig) (src : AnswerSource)
    (c : ℚ) (h : c < cfg.review_threshold) :
    presentedStatus cfg src c = ReviewStatus.needs_review ∧
      presentedStatus cfg src c ≠ ReviewStatus.accepted := by
  constructor
  · simp [presentedStatus, gate, h]
  · simp [presentedStatus, gate, h]

/-- Witness for C1 at the default configuration (threshold 0.6): a memory
reuse with confidence 0.5 is routed to `needs_review`, not `accepted`. -/
theorem gate_low_confidence_needs_review_witness :
    presentedStatus defaultGateConfig AnswerSource.memory_reuse (1/2)
        = ReviewStatus.needs_review ∧
      presentedStatus defaultGateConfig AnswerSource.memory_reuse (1/2)
        ≠ ReviewStatus.accepted :=
  gate_low_confidence_needs_review defaultGateConfig AnswerSource.memory_reuse
    (1/2) (by norm_num [defaultGateConfig])

/-- Payload of an `answer_memory` row apart from its timestamp, from the
schema: `site_id`, `question_hash` (SHA256 hex of the normalized question,
modelled as an opaque string), `answer_value`, `evidence_file_id`,
`evidence_page`, `evidence_span`, `confidence_score`. -/
structure MemData where
  site_id : Nat
  question_hash : String
  answer_value : String
  evidence_file_id : Nat
  evidence_page : Nat
  evidence_span : String
  confidence_score : ℚ
deriving DecidableEq, Repr

/-- A stored `answer_memory` row: its payload plus the `last_updated`
timestamp column. -/
structure MemRow where
  data : MemData
  last_updated : Nat
deriving DecidableEq, Repr

/-- The `(site_id, question_hash)` key of a stored row, the column pair under
the schema constraint `UNIQUE(site_id, question_hash)`. -/
def memKey (r : MemRow) : Nat × String :=
  (r.data.site_id, r.data.question_hash)

/-- The `(site_id, question_hash)` key carried by an upsert payload. -/
def dataKey (d : MemData) : Nat × String :=
  (d.site_id, d.question_hash)

/-- Keys are pairwise distinct in the store: the invariant expressed by the
schema constraint `UNIQUE(site_id, question_hash)` on `answer_memory`. -/
def KeysUnique (store : List MemRow) : Prop :=
  store.Pairwise (fun a b => memKey a ≠ memKey b)

instance (store : List MemRow) : Decidable (KeysUnique store) := by
  unfold KeysUnique
  infer_instance

/-- Modelled from the spec: `memory.upsert(site_id, question_hash, value,
evidence, confidence)` of the Recorder stage (spec sections 3, 4.5, 6) over
the `answer_memory` table with its `UNIQUE(site_id, question_hash)`
constraint: the row with the matching key is replaced (last-write-wins, full
provenance replacement), and a new row is appended when no row has the key.
The Recorder code is not among the visible sources. -/
def upsert (store : List MemRow) (d : MemData) (now : Nat) : List MemRow :=
  match store with
  | [] => [MemRow.mk d now]
  | r :: rs =>
      if memKey r = dataKey d then MemRow.mk d now :: rs
      else r :: upsert rs d now

/-- Membership in an upserted store: each row is the new row or an old row. -/
theorem mem_upsert {store : List MemRow} {d : MemData} {now : Nat} {x : MemRow}
    (h : x ∈ upsert store d now) : x = MemRow.mk d now ∨ x ∈ store := by
  induction store with
  | nil => simpa [upsert] using h
  | cons r rs ih =>
      by_cases hk : memKey r = dataKey d
      · simp only [upsert, if_pos hk, List.mem_cons] at h
        rcases h with h | h
        · exact Or.inl h
        · exact Or.inr (List.mem_cons_of_mem r h)
      · simp only [upsert, if_neg hk, List.mem_cons] at h
        rcases h with h | h
        · exact Or.inr (h ▸ List.mem_cons_self r rs)
        · rcases ih h with h2 | h2
          · exact Or.inl h2
          · exact Or.inr (List.mem_cons_of_mem r h2)

/-- The key of the freshly written row is the key of its payload. -/
theorem memKey_mk (d : MemData) (now : Nat) : memKey (MemRow.mk d now) = dataKey d := by
  simp [memKey, dataKey]

/-- Upsert preserves key uniqueness. -/
theorem keysUnique_upsert {store : List MemRow} (d : MemData) (now : Nat)
    (h : KeysUnique store) : KeysUnique (upsert store d now) := by
  induction store with
  | nil => simp [upsert, KeysUnique]
  | cons r rs ih =>
      rcases List.pairwise_cons.mp h with ⟨hhead, htail⟩
      by_cases hk : memKey r = dataKey d
      · simp only [upsert, if_pos hk]
        refine List.pairwise_cons.mpr ⟨?_, htail⟩
        intro x hx
        rw [memKey_mk, ← hk]
        exact hhead x hx
      · simp only [upsert, if_neg hk]
        refine List.pairwise_cons.mpr ⟨?_, ih htail⟩
        intro x hx
        rcases mem_upsert hx with h2 | h2
        · rw [h2, memKey_mk]
          exact hk
        · exact hhead x h2

/-- In a key-unique store, an upsert leaves exactly one row carrying the
upserted key. -/
theorem countP_key_upsert {store : List MemRow} (d : MemData) (now : Nat)
    (h : KeysUnique store) :
    (upsert store d now).countP (fun r => decide (memKey r = dataKey d)) = 1 := by
  induction store with
  | nil => simp [upsert, List.countP_cons, memKey_mk]
  | cons r rs ih =>
      rcases List.pairwise_cons.mp h with ⟨hhead, htail⟩
      by_cases hk : memKey r = dataKey d
      · simp only [upsert, if_pos hk]
        rw [List.countP_cons_of_pos _ _ (by simp [memKey_mk])]
        have hzero : rs.countP (fun r => decide (memKey r = dataKey d)) = 0 := by
          apply List.countP_eq_zero.mpr
          intro x hx
          simp only [decide_eq_true_eq]
          rw [← hk]
          exact (hhead x hx).symm
        omega
      · simp only [upsert, if_neg hk]
        rw [List.countP_cons_of_neg _ _ (by simpa using hk)]
        exact ih htail

/-- Reachable Answer Memory states: the store starts empty and is mutated
only by Recorder upserts (spec section 3, "Mutated only by the Recorder").
Concurrent upserts are serialized per key (spec section 5), so any reachable
state is produced by some finite sequence of upserts. -/
inductive Reachable : List MemRow → Prop where
  | empty : Reachable []
  | step (store : List MemRow) (d : MemData) (now : Nat) :
      Reachable store → Reachable (upsert store d now)

/-- C3: every reachable Answer Memory state has at most one row per
`(site_id, question_hash)` key, and any further upsert — including the
serialized commits of concurrent Runs resolving the same fingerprint —
replaces the row for its key, leaving exactly one row for that key and
preserving uniqueness. -/
theorem answer_memory_unique_per_key (store : List MemRow)
    (h : Reachable store) :
    KeysUnique store ∧
      ∀ d now, KeysUnique (upsert store d now) ∧
        (upsert store d now).countP (fun r => decide (memKey r = dataKey d)) = 1 := by
  have huniq : KeysUnique store := by
    induction h with
    | empty => exact List.Pairwise.nil
    | step s d now _ ih => exact keysUnique_upsert d now ih
  exact ⟨huniq, fun d now =>
    ⟨keysUnique_upsert d now huniq, countP_key_upsert d now huniq⟩⟩

/-- A concrete Answer Memory payload used by the witnesses. -/
def memData1 : MemData := ⟨7, "a1b2c3", "approximately 150 patients", 3, 2, "10..52", 9/10⟩

/-- A second payload with the same site and a different question hash. -/
def memData2 : MemData := ⟨7, "d4e5f6", "Dr. Sarah Johnson", 4, 1, "0..17", 8/10⟩

/-- A reachable one-row store. -/
def memStore1 : List MemRow := upsert [] memData1 5

/-- Witness for C3 at the concrete reachable store `memStore1`. -/
theorem answer_memory_unique_per_key_witness :
    KeysUnique memStore1 ∧
      ∀ d now, KeysUnique (upsert memStore1 d now) ∧
        (upsert memStore1 d now).countP (fun r => decide (memKey r = dataKey d)) = 1 :=
  answer_memory_unique_per_key memStore1
    (Reachable.step [] memData1 5 Reachable.empty)

/-- C4: Recorder upsert is idempotent.  Applying upsert twice with the
identical payload `(site_id, question_hash, value, evidence, confidence)`
leaves exactly one row for that key, and the stored payloads of all rows —
everything apart from the `last_updated` timestamp — equal those after a
single upsert. -/
theorem upsert_idempotent (store : List MemRow) (d : MemData) (t1 t2 : Nat)
    (h : KeysUnique store) :
    (upsert (upsert store d t1) d t2).map MemRow.data
        = (upsert store d t1).map MemRow.data ∧
      (upsert (upsert store d t1) d t2).countP
        (fun r => decide (memKey r = dataKey d)) = 1 := by
  constructor
  · clear h
    induction store with
    | nil => simp [upsert, memKey_mk]
    | cons r rs ih =>
        by_cases hk : memKey r = dataKey d
        · simp [upsert, hk, memKey_mk]
        · simp only [upsert, if_neg hk]
          simp only [upsert, if_neg hk, List.map_cons]
          rw [ih]
  · exact countP_key_upsert d t2 (keysUnique_upsert d t1 h)

/-- Witness for C4: a double upsert of `memData2` into the concrete store
`memStore1` agrees, payload-wise, with the single upsert, and stores exactly
one row for the key of `memData2`. -/
theorem upsert_idempotent_witness :
    (upsert (upsert memStore1 memData2 9) memData2 11).map MemRow.data
        = (upsert memStore1 memData2 9).map MemRow.data ∧
      (upsert (upsert memStore1 memData2 9) memData2 11).countP
        (fun r => decide (memKey r = dataKey memData2)) = 1 :=
  upsert_idempotent memStore1 memData2 9 11 (by decide)

/-- An uploaded file, from the `files` table: `id`, `site_id`, `upload_date`
(columns not used by the claims are omitted). -/
structure SiteFile where
  id : Nat
  site_id : Nat
  upload_date : Nat
deriving DecidableEq, Repr

/-- A text chunk, from the `chunks` table: `id`, `file_id`, `page_number`,
`chunk_text` (modelled as its list of normalized tokens) and `embedding`
(a fixed-dimension vector, modelled over the rationals). -/
structure Chunk where
  id : Nat
  file_id : Nat
  page_number : Nat
  chunk_text : List String
  embedding : List ℚ
deriving DecidableEq, Repr

/-- The per-site corpus storage: `files` and `chunks` rows. -/
structure CorpusDB where
  files : List SiteFile
  chunks : List Chunk
deriving DecidableEq, Repr

/-- The row-level security select policy on `chunks` from the schema:
a chunk is visible to a site exactly when its `file_id` is among the `files`
rows whose `site_id` is the requesting site. -/
def chunkVisible (db : CorpusDB) (site_id : Nat) (c : Chunk) : Bool :=
  db.files.any (fun f => f.id == c.file_id && f.site_id == site_id)

/-- Insertion of one element into a list sorted by a boolean ranking. -/
def insertRanked (le : α → α → Bool) (a : α) : List α → List α
  | [] => [a]
  | b :: bs => if le a b then a :: b :: bs else b :: insertRanked le a bs

/-- Insertion sort by a boolean ranking; used to model the deterministic,
reproducible result ordering of spec section 4.1. -/
def sortRanked (le : α → α → Bool) : List α → List α
  | [] => []
  | a :: as => insertRanked le a (sortRanked le as)

/-- Membership is invariant under ranked insertion. -/
theorem mem_insertRanked (le : α → α → Bool) (a x : α) (l : List α) :
    x ∈ insertRanked le a l ↔ x = a ∨ x ∈ l := by
  induction l with
  | nil => simp [insertRanked]
  | cons b bs ih =>
      by_cases hc : le a b = true
      · simp [insertRanked, hc]
      · simp only [insertRanked, if_neg hc, List.mem_cons, ih]
        tauto

/-- Membership is invariant under ranked sorting. -/
theorem mem_sortRanked (le : α → α → Bool) (x : α) (l : List α) :
    x ∈ sortRanked le l ↔ x ∈ l := by
  induction l with
  | nil => simp [sortRanked]
  | cons a as ih => simp [sortRanked, mem_insertRanked, ih]

/-- Ranked insertion grows the length by one. -/
theorem length_insertRanked (le : α → α → Bool) (a : α) (l : List α) :
    (insertRanked le a l).length = l.length + 1 := by
  induction l with
  | nil => simp [insertRanked]
  | cons b bs ih =>
      by_cases hc : le a b = true
      · simp [insertRanked, hc]
      · simp [insertRanked, hc, ih]

/-- Ranked sorting preserves the length. -/
theorem length_sortRanked (le : α → α → Bool) (l : List α) :
    (sortRanked le l).length = l.length := by
  induction l with
  | nil => rfl
  | cons a as ih => simp [sortRanked, length_insertRanked, ih]

/-- Smallest value of a list of rationals (0 for the empty pool). -/
def poolMin : List ℚ → ℚ
  | [] => 0
  | x :: xs => List.foldl min x xs

/-- Largest value of a list of rationals (0 for the empty pool). -/
def poolMax : List ℚ → ℚ
  | [] => 0
  | x :: xs => List.foldl max x xs

/-- Min-max normalization of a raw score over the raw scores of the
candidate pool (spec section 4.1); a degenerate pool normalizes to 0. -/
def minmaxNorm (xs : List ℚ) (x : ℚ) : ℚ :=
  if poolMax xs = poolMin xs then 0
  else (x - poolMin xs) / (poolMax xs - poolMin xs)

/-- Modelled from the spec: the lexical score of section 4.1, a normalized
term-overlap score of the query tokens against the chunk text. -/
def lexRawScore (queryTokens : List String) (c : Chunk) : ℚ :=
  if queryTokens.length = 0 then 0
  else ((queryTokens.filter (fun t => c.chunk_text.contains t)).length : ℚ)
    / (queryTokens.length : ℚ)

/-- Dot product of two rational vectors. -/
def dotQ : List ℚ → List ℚ → ℚ
  | x :: xs, y :: ys => x * y + dotQ xs ys
  | _, _ => 0

/-- Modelled from the spec: the vector similarity of section 4.1 between the
query embedding and the chunk embedding. -/
def vecRawScore (queryEmb : List ℚ) (c : Chunk) : ℚ :=
  dotQ queryEmb c.embedding

/-- Upload date of the file owning a chunk (0 when the file row is absent),
used for the recency tie-break of spec section 4.1. -/
def fileUploadDate (db : CorpusDB) (fid : Nat) : Nat :=
  ((db.files.find? (fun f => f.id == fid)).map (fun f => f.upload_date)).getD 0

/-- Result ordering of spec section 4.1: higher fused score first, ties
broken by more recent file upload date, then by lower chunk id. -/
def rankLE (db : CorpusDB) (a b : Chunk × ℚ) : Bool :=
  if a.2 = b.2 then
    if fileUploadDate db a.1.file_id = fileUploadDate db b.1.file_id then
      decide (a.1.id ≤ b.1.id)
    else decide (fileUploadDate db b.1.file_id < fileUploadDate db a.1.file_id)
  else decide (b.2 < a.2)

/-- Modelled from the spec: `search(site_id, query_text, k)` of section 4.1.
The candidate pool is the chunks passing the row-level security site filter
from the schema (a hard filter, not a ranking signal); lexical and vector
raw scores are min-max normalized over the pool and fused with the fixed
weighting 0.4 lexical + 0.6 vector; results are ordered deterministically
and at most `k` are returned.  The retriever code is not among the visible
sources. -/
def search (db : CorpusDB) (site_id : Nat) (queryTokens : List String)
    (queryEmb : List ℚ) (k : Nat) : List (Chunk × ℚ) :=
  let pool := db.chunks.filter (chunkVisible db site_id)
  let lexRaws := pool.map (lexRawScore queryTokens)
  let vecRaws := pool.map (vecRawScore queryEmb)
  let fused := fun c => 4/10 * minmaxNorm lexRaws (lexRawScore queryTokens c)
    + 6/10 * minmaxNorm vecRaws (vecRawScore queryEmb c)
  let scored := pool.map (fun c => (c, fused c))
  (sortRanked (rankLE db) scored).take k

/-- C2: retrieval is site-isolated.  Every chunk returned by
`search(site_id, query, k)` belongs to a file owned by that same site;
no chunk of another site is ever returned. -/
theorem search_site_isolation (db : CorpusDB) (site_id : Nat)
    (queryTokens : List String) (queryEmb : List ℚ) (k : Nat)
    (c : Chunk) (s : ℚ) (h : (c, s) ∈ search db site_id queryTokens queryEmb k) :
    ∃ f, f ∈ db.files ∧ f.id = c.file_id ∧ f.site_id = site_id := by
  have hmem : (c, s) ∈ (db.chunks.filter (chunkVisible db site_id)).map
      (fun c2 => (c2, 4/10 * minmaxNorm ((db.chunks.filter (chunkVisible db site_id)).map
          (lexRawScore queryTokens)) (lexRawScore queryTokens c2)
        + 6/10 * minmaxNorm ((db.chunks.filter (chunkVisible db site_id)).map
          (vecRawScore queryEmb)) (vecRawScore queryEmb c2))) := by
    have h2 := List.mem_of_mem_take h
    rw [mem_sortRanked] at h2
    exact h2
  rcases List.mem_map.mp hmem with ⟨c2, hc2, heq⟩
  have hc : c2 = c := congrArg Prod.fst heq
  subst hc
  have hvis : chunkVisible db site_id c2 = true := (List.mem_filter.mp hc2).2
  rcases List.any_eq_true.mp hvis with ⟨f, hf, hp⟩
  simp only [Bool.and_eq_true, beq_iff_eq] at hp
  exact ⟨f, hf, hp.1, hp.2⟩

/-- C8: retrieval returns at most `k` results, and when the site owns no
chunks it returns the empty list as a normal result. -/
theorem search_bounded_and_total (db : CorpusDB) (site_id : Nat)
    (queryTokens : List String) (queryEmb : List ℚ) (k : Nat) :
    (search db site_id queryTokens queryEmb k).length ≤ k ∧
      ((∀ c ∈ db.chunks, chunkVisible db site_id c = false) →
        search db site_id queryTokens queryEmb k = []) := by
  constructor
  · exact List.length_take_le _ _
  · intro hempty
    have hfil : db.chunks.filter (chunkVisible db site_id) = [] := by
      apply List.filter_eq_nil_iff.mpr
      intro c hc
      simp [hempty c hc]
    simp [search, hfil, sortRanked]

/-- A concrete file row owned by site 7, used by the retrieval witnesses. -/
def file1 : SiteFile := ⟨1, 7, 20240101⟩

/-- A concrete chunk of `file1`, used by the retrieval witnesses. -/
def chunk1 : Chunk := ⟨10, 1, 1, ["boston"], [1]⟩

/-- A concrete corpus holding one file of site 7 and one chunk of it. -/
def corpus1 : CorpusDB := ⟨[file1], [chunk1]⟩

/-- A concrete corpus whose single file owns no chunks. -/
def corpus2 : CorpusDB := ⟨[file1], []⟩

/-- Witness for C2: the chunk returned by a concrete search against
`corpus1` belongs to a file owned by site 7. -/
theorem search_site_isolation_witness :
    ∃ f, f ∈ corpus1.files ∧ f.id = chunk1.file_id ∧ f.site_id = 7 :=
  search_site_isolation corpus1 7 [] [] 1 chunk1 0
    (by simp [search, chunkVisible, minmaxNorm, poolMax, poolMin, lexRawScore,
      vecRawScore, dotQ, sortRanked, insertRanked, corpus1, chunk1, file1])

/-- Witness for C8: a concrete search against a corpus whose site owns no
chunks returns at most `k` results and indeed the empty list. -/
theorem search_bounded_and_total_witness :
    (search corpus2 7 [] [] 3).length ≤ 3 ∧ search corpus2 7 [] [] 3 = [] := by
  have h := search_bounded_and_total corpus2 7 [] [] 3
  exact ⟨h.1, h.2 (by simp [corpus2])⟩

/-- A candidate answer extracted from one chunk (spec section 4.3): its
value, its evidence citation, the fused retrieval score of its chunk from
section 4.1, and the upload date of the file of the chunk. -/
structure Candidate where
  value : String
  file_id : Nat
  page : Nat
  span_start : Nat
  span_len : Nat
  fused_score : ℚ
  upload_date : Nat
  chunk_id : Nat
deriving DecidableEq, Repr

/-- Modelled from the spec: the deterministic tie-break of section 4.3.
`beats eps a b` holds when candidate `a` is preferred over `b`: a fused
score higher by more than the epsilon wins; scores within the epsilon fall
back to the more recently uploaded file. -/
def beats (eps : ℚ) (a b : Candidate) : Bool :=
  if a.fused_score > b.fused_score + eps then true
  else if b.fused_score > a.fused_score + eps then false
  else decide (b.upload_date < a.upload_date)

/-- Modelled from the spec: conflict resolution of section 4.3.  Exactly one
value and evidence of one candidate win; the winner is selected by a fold over
the candidate list with the deterministic preference `beats`.  The function
is pure, so rerunning it on identical inputs yields the identical result. -/
def resolveConflict (eps : ℚ) (cs : List Candidate) : Option Candidate :=
  List.foldl
    (fun acc c =>
      match acc with
      | Option.none => some c
      | Option.some b => if beats eps c b then some c else some b)
    Option.none cs

/-- C5: evidence conflict resolution is deterministic.  For two conflicting
candidates, when the fused scores differ by more than the epsilon the
value and evidence of the higher-scored candidate win in either presentation
order, and when the scores are within the epsilon the candidate from the
more recently uploaded file wins in either order; the result is a pure
function of the inputs, so two executions on identical inputs agree. -/
theorem conflict_resolution_deterministic (eps : ℚ) (heps : 0 ≤ eps)
    (c1 c2 : Candidate) :
    (c1.fused_score > c2.fused_score + eps →
      resolveConflict eps [c1, c2] = some c1 ∧
        resolveConflict eps [c2, c1] = some c1) ∧
      (|c1.fused_score - c2.fused_score| ≤ eps → c2.upload_date < c1.upload_date →
        resolveConflict eps [c1, c2] = some c1 ∧
          resolveConflict eps [c2, c1] = some c1) := by
  have hpair : ∀ a b : Candidate,
      resolveConflict eps [a, b] = if beats eps b a then some b else some a :=
    fun a b => rfl
  constructor
  · intro hgt
    have hn21 : ¬ c2.fused_score > c1.fused_score + eps := by
      intro hc
      linarith
    have hb21 : beats eps c2 c1 = false := by
      unfold beats
      rw [if_neg hn21, if_pos hgt]
    have hb12 : beats eps c1 c2 = true := by
      unfold beats
      rw [if_pos hgt]
    constructor
    · rw [hpair c1 c2, hb21]
      simp
    · rw [hpair c2 c1, hb12]
      simp
  · intro habs hdate
    have hb := abs_le.mp habs
    have hn12 : ¬ c1.fused_score > c2.fused_score + eps := by
      intro hc
      linarith [hb.2]
    have hn21 : ¬ c2.fused_score > c1.fused_score + eps := by
      intro hc
      linarith [hb.1]
    have hb21 : beats eps c2 c1 = false := by
      unfold beats
      rw [if_neg hn21, if_neg hn12]
      simp [Nat.not_lt.mpr hdate.le]
    have hb12 : beats eps c1 c2 = true := by
      unfold beats
      rw [if_neg hn12, if_neg hn21]
      simp [hdate]
    constructor
    · rw [hpair c1 c2, hb21]
      simp
    · rw [hpair c2 c1, hb12]
      simp

/-- A concrete high-scoring candidate from a recently uploaded file. -/
def cand1 : Candidate := ⟨"150 patients", 3, 2, 10, 42, 9/10, 5, 21⟩

/-- A concrete low-scoring candidate from an older file. -/
def cand2 : Candidate := ⟨"200 patients", 4, 1, 0, 17, 1/10, 3, 22⟩

/-- Witness for C5: with epsilon 0.001 the higher-scored candidate `cand1`
wins in either presentation order. -/
theorem conflict_resolution_deterministic_witness :
    resolveConflict (1/1000) [cand1, cand2] = some cand1 ∧
      resolveConflict (1/1000) [cand2, cand1] = some cand1 :=
  (conflict_resolution_deterministic (1/1000) (by norm_num) cand1 cand2).1
    (by norm_num [cand1, cand2])

/-- Input signals of the confidence scorer (spec section 4.4): the fused
retrieval score and the evidence-quality signals — whether memory and fresh
retrieval concur, and the evidence span length with the expected length for
the answer type. -/
structure ScorerInput where
  fused_score : ℚ
  memory_agreement : Bool
  span_length : Nat
  expected_span_length : Nat
deriving DecidableEq, Repr

/-- Clamp a rational to the unit interval, keeping confidence in [0, 1]. -/
def clamp01 (x : ℚ) : ℚ := max 0 (min 1 x)

/-- Modelled from the spec: the agreement bonus of section 4.4, granted when
memory and fresh retrieval concur. -/
def agreementBonus (i : ScorerInput) : ℚ :=
  if i.memory_agreement then 1/10 else 0

/-- Modelled from the spec: the short-span penalty of section 4.4, applied
when the evidence span is very short relative to the expected answer type. -/
def shortSpanPenalty (i : ScorerInput) : ℚ :=
  if 2 * i.span_length < i.expected_span_length then 15/100 else 0

/-- Modelled from the spec: `score(candidate) → confidence ∈ [0,1]` of
section 4.4, combining the fused retrieval score with the agreement bonus
and the short-span penalty; the scorer code is not among the visible
sources. -/
def confidenceScore (i : ScorerInput) : ℚ :=
  clamp01 (8/10 * i.fused_score + agreementBonus i - shortSpanPenalty i)

/-- C9: the confidence scorer is monotone in the fused retrieval score.  For
two inputs agreeing on all evidence-quality signals, the one with the
greater fused score never yields a strictly smaller confidence. -/
theorem confidence_monotone_in_fused (i1 i2 : ScorerInput)
    (hm : i1.memory_agreement = i2.memory_agreement)
    (hs : i1.span_length = i2.span_length)
    (he : i1.expected_span_length = i2.expected_span_length)
    (hf : i1.fused_score ≤ i2.fused_score) :
    confidenceScore i1 ≤ confidenceScore i2 := by
  have hbonus : agreementBonus i1 = agreementBonus i2 := by
    unfold agreementBonus
    rw [hm]
  have hpen : shortSpanPenalty i1 = shortSpanPenalty i2 := by
    unfold shortSpanPenalty
    rw [hs, he]
  unfold confidenceScore clamp01
  rw [hbonus, hpen]
  have h8 : 8/10 * i1.fused_score ≤ 8/10 * i2.fused_score := by
    apply mul_le_mul_of_nonneg_left hf
    norm_num
  exact max_le_max le_rfl (min_le_min le_rfl (by linarith))

/-- Witness for C9 at two concrete inputs that differ only in the fused
score (0 versus 0.5). -/
theorem confidence_monotone_in_fused_witness :
    confidenceScore (ScorerInput.mk 0 true 10 12)
      ≤ confidenceScore (ScorerInput.mk (1/2) true 10 12) :=
  confidence_monotone_in_fused (ScorerInput.mk 0 true 10 12)
    (ScorerInput.mk (1/2) true 10 12) rfl rfl rfl (by norm_num)

/-- One evidence citation of a field answer, from the `evidence` element type
of `FieldAnswer` in `review/[runId].tsx`: `file_id`, `file_name`, `page`,
`text`. -/
structure EvidenceLink where
  file_id : String
  file_name : String
  page : Nat
  text : String
deriving DecidableEq, Repr

/-- A per-field answer shown in the review screen, from the `FieldAnswer`
interface of `review/[runId].tsx`: every answer carries exactly one explicit
status drawn from `accepted | edited | needs_review`. -/
structure FieldAnswer where
  id : String
  label : String
  value : String
  confidence : ℚ
  evidence : List EvidenceLink
  status : ReviewStatus
  reviewer_comments : Option String
deriving DecidableEq, Repr

/-- The data of the review screen, from the `ReviewData` interface of
`review/[runId].tsx`. -/
structure ReviewData where
  run_id : String
  questionnaire_name : String
  sponsor : String
  status : String
  autofill_percentage : ℚ
  total_fields : Nat
  fields : List FieldAnswer
  start_time : String
deriving DecidableEq, Repr

/-- The three per-status counts of the review summary. -/
structure ReviewStatsCounts where
  accepted : Nat
  edited : Nat
  needsReview : Nat
deriving DecidableEq, Repr

/-- The `reviewStats` computation of `review/[runId].tsx` (lines 208-212):
each count is the length of the fields list filtered by one status. -/
def reviewStats (fields : List FieldAnswer) : ReviewStatsCounts :=
  ReviewStatsCounts.mk
    (fields.filter (fun f => decide (f.status = ReviewStatus.accepted))).length
    (fields.filter (fun f => decide (f.status = ReviewStatus.edited))).length
    (fields.filter (fun f => decide (f.status = ReviewStatus.needs_review))).length

/-- The three per-status counts always sum to the length of the fields list,
because every `FieldAnswer` carries exactly one of the three statuses. -/
theorem reviewStats_sum (fields : List FieldAnswer) :
    (reviewStats fields).accepted + (reviewStats fields).edited
      + (reviewStats fields).needsReview = fields.length := by
  induction fields with
  | nil => rfl
  | cons f fs ih =>
      simp only [reviewStats, List.filter_cons, List.length_cons] at ih ⊢
      cases f.status <;> simp <;> omega

/-- Modelled from the spec: the run-level aggregate of section 4.5,
`autofill_percentage` = accepted field count / total field count, computed
once all fields reach a terminal per-field state; the orchestrator code is
not among the visible sources. -/
def autofillPercentage (fields : List FieldAnswer) : ℚ :=
  ((fields.filter (fun f => decide (f.status = ReviewStatus.accepted))).length : ℚ)
    / (fields.length : ℚ)

/-- The "Fields Requiring Review" computation of `ReviewSummary.tsx`
(line 87): `totalFields - Math.round((autofillPercentage / 100) *
totalFields)`, where the displayed percentage is on the 0-100 scale. -/
def fieldsRequiringReview (totalFields : Nat) (autofillPct : ℚ) : ℤ :=
  (totalFields : ℤ) - round (autofillPct / 100 * (totalFields : ℚ))

/-- C6: for a completed run — every field in a terminal per-field state,
`accepted` or `needs_review` — the aggregate `autofill_percentage` is the
accepted count over the total count, the number of fields requiring review
equals total fields minus `autofill_percentage` times total fields, and the
display formula of `ReviewSummary.tsx` (on the 0-100 scale) computes exactly
that needs-review count. -/
theorem autofill_percentage_accounting (fields : List FieldAnswer)
    (hne : fields ≠ [])
    (hterm : ∀ f ∈ fields, f.status = ReviewStatus.accepted
      ∨ f.status = ReviewStatus.needs_review) :
    ((reviewStats fields).needsReview : ℚ)
        = (fields.length : ℚ) - autofillPercentage fields * (fields.length : ℚ)
      ∧ fieldsRequiringReview fields.length (100 * autofillPercentage fields)
        = ((reviewStats fields).needsReview : ℤ) := by
  have hlen : fields.length ≠ 0 := by
    intro h
    exact hne (List.length_eq_zero.mp h)
  have hn : (fields.length : ℚ) ≠ 0 := by
    exact_mod_cast hlen
  have hedit : (reviewStats fields).edited = 0 := by
    have hfil : fields.filter (fun f => decide (f.status = ReviewStatus.edited)) = [] := by
      apply List.filter_eq_nil_iff.mpr
      intro f hf
      rcases hterm f hf with h | h <;> simp [h]
    simp [reviewStats, hfil]
  have hsum := reviewStats_sum fields
  have hnat : (reviewStats fields).accepted + (reviewStats fields).needsReview
      = fields.length := by omega
  have ha_cast : autofillPercentage fields * (fields.length : ℚ)
      = ((reviewStats fields).accepted : ℚ) := by
    unfold autofillPercentage
    rw [div_mul_cancel₀ _ hn]
    rfl
  constructor
  · rw [ha_cast]
    have hq := congrArg (Nat.cast : ℕ → ℚ) hnat
    push_cast at hq
    linarith
  · unfold fieldsRequiringReview
    have h100 : 100 * autofillPercentage fields / 100 * (fields.length : ℚ)
        = autofillPercentage fields * (fields.length : ℚ) := by
      ring
    rw [h100, ha_cast, round_natCast]
    omega

/-- A concrete accepted field answer. -/
def termField1 : FieldAnswer :=
  ⟨"f1", "Principal Investigator Name", "Dr. Sarah Johnson", 9/10, [],
    ReviewStatus.accepted, none⟩

/-- A concrete field answer routed to review. -/
def termField2 : FieldAnswer :=
  ⟨"f2", "Available Patient Population", "", 1/10, [],
    ReviewStatus.needs_review, none⟩

/-- A concrete completed run: one accepted field and one needing review. -/
def termFields : List FieldAnswer := [termField1, termField2]

/-- Witness for C6 at the concrete completed run `termFields`. -/
theorem autofill_percentage_accounting_witness :
    ((reviewStats termFields).needsReview : ℚ)
        = (termFields.length : ℚ)
          - autofillPercentage termFields * (termFields.length : ℚ)
      ∧ fieldsRequiringReview termFields.length (100 * autofillPercentage termFields)
        = ((reviewStats termFields).needsReview : ℤ) :=
  autofill_percentage_accounting termFields (by decide) (by decide)

/-- First mock field of `fetchReviewData` in `review/[runId].tsx`:
`investigator_name`, confidence 0.95, status `accepted`. -/
def mockField1 : FieldAnswer :=
  ⟨"investigator_name", "Principal Investigator Name",
    "Dr. Sarah Johnson, MD, PhD", 95/100,
    [⟨"cv_001", "investigator_cv.pdf", 1,
      "Dr. Sarah Johnson, MD, PhD, is a board-certified cardiologist..."⟩],
    ReviewStatus.accepted, none⟩

/-- Second mock field: `site_address`, confidence 0.88, status `accepted`. -/
def mockField2 : FieldAnswer :=
  ⟨"site_address", "Site Address",
    "123 Medical Center Drive, Suite 400, Boston, MA 02115", 88/100,
    [⟨"site_info_001", "site_qualification_form.pdf", 2,
      "Site Address: 123 Medical Center Drive, Suite 400, Boston, MA 02115"⟩],
    ReviewStatus.accepted, none⟩

/-- The reviewer comment attached to the third mock field. -/
def mockComment3 : String :=
  "Please verify the exact patient count and inclusion criteria"

/-- Third mock field: `patient_population`, confidence 0.65, status
`needs_review`, with a reviewer comment. -/
def mockField3 : FieldAnswer :=
  ⟨"patient_population", "Available Patient Population",
    "Approximately 150-200 patients with heart failure", 65/100,
    [⟨"patient_db_001", "patient_database_summary.pdf", 3,
      "Our database contains approximately 150-200 patients diagnosed with heart failure..."⟩],
    ReviewStatus.needs_review, some mockComment3⟩

/-- Fourth mock field: `recruitment_rate`, confidence 0.72, status
`edited`. -/
def mockField4 : FieldAnswer :=
  ⟨"recruitment_rate", "Expected Monthly Recruitment Rate",
    "8-12 patients per month", 72/100,
    [⟨"recruitment_001", "historical_recruitment_data.xlsx", 1,
      "Historical data shows average recruitment of 8-12 patients per month for similar studies"⟩],
    ReviewStatus.edited, none⟩

/-- The mock review data returned by `fetchReviewData` in
`review/[runId].tsx` for a given run id: `autofill_percentage` 72.5,
`total_fields` 24, and the four mock fields above. -/
def mockReviewData (id : String) : ReviewData :=
  ⟨id, "Pfizer Phase III Feasibility Questionnaire", "Pfizer Inc.",
    "needs_review", 725/10, 24,
    [mockField1, mockField2, mockField3, mockField4],
    "2024-01-15T10:30:00Z"⟩

/-- A concrete run id for the review-screen facts. -/
def mockRunId : String := "run_001"

/-- C7 counterexample: with the review data the screen actually receives
(the mock of `fetchReviewData`), the three per-status counts are 2, 1 and 1
and sum to 4, the number of answers received, while `total_fields` is 24 —
so the counts do not sum to the total number of template fields. -/
theorem review_counts_counterexample :
    (reviewStats (mockReviewData mockRunId).fields).accepted = 2
      ∧ (reviewStats (mockReviewData mockRunId).fields).edited = 1
      ∧ (reviewStats (mockReviewData mockRunId).fields).needsReview = 1
      ∧ (mockReviewData mockRunId).total_fields = 24
      ∧ (reviewStats (mockReviewData mockRunId).fields).accepted
          + (reviewStats (mockReviewData mockRunId).fields).edited
          + (reviewStats (mockReviewData mockRunId).fields).needsReview
        ≠ (mockReviewData mockRunId).total_fields := by
  refine ⟨?_, ?_, ?_, ?_, ?_⟩ <;> decide

/-- C7 as amended: every answer delivered to the review view carries exactly
one explicit status from `needs_review | accepted | edited` (the type of
`FieldAnswer.status`), and the three per-status counts of the review summary
always sum to the number of answers received; they equal `total_fields`
exactly when the view receives one answer per template field, which the
current mock data (4 answers, `total_fields` = 24) does not satisfy. -/
theorem review_counts_sum_to_received (fields : List FieldAnswer) :
    (reviewStats fields).accepted + (reviewStats fields).edited
      + (reviewStats fields).needsReview = fields.length :=
  reviewStats_sum fields

/-- A partial update of a `FieldAnswer`, from the `Partial<FieldAnswer>`
parameter of `handleFieldUpdate` in `review/[runId].tsx`: each property is
either absent or supplies a new value. -/
structure FieldAnswerUpdates where
  id : Option String
  label : Option String
  value : Option String
  confidence : Option ℚ
  evidence : Option (List EvidenceLink)
  status : Option ReviewStatus
  reviewer_comments : Option (Option String)
deriving DecidableEq, Repr

/-- The object spread of the update over one field, as in the handler:
each property named in the update replaces the property of the field, the rest
are kept. -/
def applyUpdates (f : FieldAnswer) (u : FieldAnswerUpdates) : FieldAnswer :=
  FieldAnswer.mk (u.id.getD f.id) (u.label.getD f.label) (u.value.getD f.value)
    (u.confidence.getD f.confidence) (u.evidence.getD f.evidence)
    (u.status.getD f.status) (u.reviewer_comments.getD f.reviewer_comments)

/-- The `handleFieldUpdate` handler of `review/[runId].tsx` (lines 144-153):
it rebuilds the review data keeping every run-level property and mapping
over the fields, spreading the updates onto the field whose id matches. -/
def handleFieldUpdate (rd : ReviewData) (fieldId : String)
    (u : FieldAnswerUpdates) : ReviewData :=
  ReviewData.mk rd.run_id rd.questionnaire_name rd.sponsor rd.status
    rd.autofill_percentage rd.total_fields
    (rd.fields.map (fun f => if f.id = fieldId then applyUpdates f u else f))
    rd.start_time

/-- C10: `handleFieldUpdate` has a frame property.  The field list keeps its
length and order; every field whose id differs from the target is unchanged
at its position; the target field becomes `applyUpdates` of itself, whose
properties not named in the update are unchanged; and every run-level
property of the review data is unchanged. -/
theorem handleFieldUpdate_frame (rd : ReviewData) (fieldId : String)
    (u : FieldAnswerUpdates) :
    (handleFieldUpdate rd fieldId u).fields.length = rd.fields.length
      ∧ (∀ i : Nat, ∀ f : FieldAnswer, rd.fields.get? i = some f → f.id ≠ fieldId →
          (handleFieldUpdate rd fieldId u).fields.get? i = some f)
      ∧ (∀ i : Nat, ∀ f : FieldAnswer, rd.fields.get? i = some f → f.id = fieldId →
          (handleFieldUpdate rd fieldId u).fields.get? i = some (applyUpdates f u)
            ∧ (u.id = none → (applyUpdates f u).id = f.id)
            ∧ (u.label = none → (applyUpdates f u).label = f.label)
            ∧ (u.value = none → (applyUpdates f u).value = f.value)
            ∧ (u.confidence = none → (applyUpdates f u).confidence = f.confidence)
            ∧ (u.evidence = none → (applyUpdates f u).evidence = f.evidence)
            ∧ (u.status = none → (applyUpdates f u).status = f.status)
            ∧ (u.reviewer_comments = none →
                (applyUpdates f u).reviewer_comments = f.reviewer_comments))
      ∧ (handleFieldUpdate rd fieldId u).run_id = rd.run_id
      ∧ (handleFieldUpdate rd fieldId u).questionnaire_name = rd.questionnaire_name
      ∧ (handleFieldUpdate rd fieldId u).sponsor = rd.sponsor
      ∧ (handleFieldUpdate rd fieldId u).status = rd.status
      ∧ (handleFieldUpdate rd fieldId u).autofill_percentage = rd.autofill_percentage
      ∧ (handleFieldUpdate rd fieldId u).total_fields = rd.total_fields
      ∧ (handleFieldUpdate rd fieldId u).start_time = rd.start_time := by
  refine ⟨?_, ?_, ?_, rfl, rfl, rfl, rfl, rfl, rfl, rfl⟩
  · simp [handleFieldUpdate]
  · intro i f hget hne
    simp only [handleFieldUpdate, List.getElem?_map, List.get?_eq_getElem?] at hget ⊢
    rw [hget]
    simp [hne]
  · intro i f hget heq
    refine ⟨?_, ?_, ?_, ?_, ?_, ?_, ?_, ?_⟩
    · simp only [handleFieldUpdate, List.getElem?_map, List.get?_eq_getElem?] at hget ⊢
      rw [hget]
      simp [heq]
    all_goals intro hnone
    all_goals simp [applyUpdates, hnone]

/-- A concrete partial update setting only the status, as the review screen
issues when a reviewer accepts a field. -/
def statusUpdate1 : FieldAnswerUpdates :=
  ⟨none, none, none, none, none, some ReviewStatus.accepted, none⟩

/-- The id of the mock field targeted by the witness update. -/
def targetFieldId : String := "patient_population"

/-- Witness for C10 on the concrete mock review data: updating the status of
the `patient_population` field leaves the differently-named field at index 0
unchanged, rewrites index 2 to the updated field whose value is unchanged,
and keeps the run-level `autofill_percentage`. -/
theorem handleFieldUpdate_frame_witness :
    (handleFieldUpdate (mockReviewData mockRunId) targetFieldId
        statusUpdate1).fields.get? 0 = some mockField1
      ∧ (handleFieldUpdate (mockReviewData mockRunId) targetFieldId
          statusUpdate1).fields.get? 2 = some (applyUpdates mockField3 statusUpdate1)
      ∧ (applyUpdates mockField3 statusUpdate1).value = mockField3.value
      ∧ (handleFieldUpdate (mockReviewData mockRunId) targetFieldId
          statusUpdate1).autofill_percentage
        = (mockReviewData mockRunId).autofill_percentage := by
  have h := handleFieldUpdate_frame (mockReviewData mockRunId) targetFieldId
    statusUpdate1
  have h3 := h.2.2.1 2 mockField3 (by rfl) (by decide)
  exact ⟨h.2.1 0 mockField1 (by rfl) (by decide), h3.1,
    h3.2.2.2.1 (by rfl), h.2.2.2.2.2.2.2.1⟩
